import Mathlib

/-!
Verification of the superglue-desktop persistent store, server lifecycle,
workflow executor failure semantics, environment validation and the MCP
run-sample cache, as a shallow embedding in Lean 4.

The PostgresStore implementation file (`datastore/postgres.ts`) is not part
of the sources in this tree; its behaviour is pinned by the SQL strings in
its unit-test file (`src/unnamed/part_005`, testing `PostgresStore`) and by
the storage contract in the specification (§4.3).  Definitions below that
embed that missing file are marked `Modelled from the spec:` in their doc
comments and follow the pinned SQL strings verbatim where the tests give
them.
-/

set_option autoImplicit false

namespace Superglue

/-! ### Percent decoding (decodeURIComponent on the id, ASCII fragment)

The test file pins that `getApiConfig` URL-decodes the id before the SQL
lookup (`'test%3Aid'` is looked up as `'test:id'`, part_005 lines 148-166).
-/

/-- Value of a hexadecimal digit character, if any (codepoints 48-57 are
the decimal digits, 65-70 and 97-102 the upper and lower hex letters). -/
def hexVal (c : Char) : Option Nat :=
  let n := c.toNat
  if 48 ≤ n ∧ n ≤ 57 then some (n - 48)
  else if 65 ≤ n ∧ n ≤ 70 then some (n - 55)
  else if 97 ≤ n ∧ n ≤ 102 then some (n - 87)
  else none

/-- Percent-decoding on a character list: a valid escape `%XY` becomes the
character with code `16*X+Y`; anything else is copied unchanged. -/
def pdecodeAux : List Char → List Char
  | '%' :: h :: l :: rest =>
    match hexVal h, hexVal l with
    | some a, some b => Char.ofNat (16 * a + b) :: pdecodeAux rest
    | _, _ => '%' :: pdecodeAux (h :: l :: rest)
  | c :: rest => c :: pdecodeAux rest
  | [] => []

/-- Modelled from the spec: ids are "URL-decoded before lookup" (§4.3); the
decoding applied by the missing store implementation to id arguments of
read/delete operations. -/
def pdecode (s : String) : String :=
  ⟨pdecodeAux s.data⟩

/-! ### Tenant predicate and rows -/

/-- The tenant-scoping predicate `$2::TEXT IS NULL OR org_id = $2::TEXT`
pinned by the test SQL (part_005 lines 141, 163, 191, 195, 226, 615):
a null tenant matches every row, a non-null tenant only rows whose stored
`org_id` equals it (SQL `NULL = x` selects nothing). -/
def tenantPred (tenant rowOrg : Option String) : Bool :=
  tenant.isNone || rowOrg == tenant

/-- A config entity as the API returns it: an opaque payload of
non-timestamp fields plus the two timestamp fields. -/
structure Entity (α : Type) where
  payload : α
  createdAt : Nat
  updatedAt : Nat
deriving Repr, DecidableEq

/-- One row of a config table: columns `id, org_id, config, created_at,
updated_at` (persisted row shape, spec §6 and the test SQL). -/
structure Row (α : Type) where
  id : String
  org : Option String
  config : Entity α
  created_at : Nat
  updated_at : Nat
deriving Repr, DecidableEq

/-- A config table (`api_configs`, `extract_configs`, `transform_configs`
or `workflows`); the four kinds share one SQL shape. -/
abbrev Table (α : Type) := List (Row α)

/-- Row-to-entity mapping pinned by the test (part_005 lines 710-735): the
JSON `config` column spread, with `createdAt`/`updatedAt` taken from the
row's indexed columns. -/
def mapRowToConfig {α : Type} (r : Row α) : Entity α :=
  ⟨r.config.payload, r.created_at, r.updated_at⟩

/-- Modelled from the spec: body of the missing `get<Kind>` store method.
SQL pinned by the test: `SELECT * FROM <kind> WHERE id = $1 AND ($2::TEXT
IS NULL OR org_id = $2::TEXT)` with `$1` the URL-decoded id; `id` is the
primary key, so the first match is the match. -/
def findConfigRow {α : Type} (t : Table α) (id : String) (tenant : Option String) :
    Option (Row α) :=
  t.find? (fun r => r.id == pdecode id && tenantPred tenant r.org)

/-- The entity returned by `get<Kind>(id, tenant)`: the found row mapped
through `mapRowToConfig`, or null. -/
def getConfig {α : Type} (t : Table α) (id : String) (tenant : Option String) :
    Option (Entity α) :=
  (findConfigRow t id tenant).map mapRowToConfig

/-- Modelled from the spec: body of the missing `upsert<Kind>` store
method.  SQL pinned by the test (part_005 line 208): `INSERT INTO <kind>
(id, org_id, config, created_at, updated_at) VALUES ($1, $2, $3, $4, $5)
ON CONFLICT (id) DO UPDATE SET org_id = $2, config = $3, updated_at = $5`
with `$4 = e.createdAt`, `$5 = e.updatedAt`.  The conflict target is the
id alone; an existing row keeps its `created_at` and has its `org_id`
reassigned to the caller's tenant. -/
def upsertConfig {α : Type} (t : Table α) (id : String) (e : Entity α)
    (tenant : Option String) : Table α :=
  if t.any (fun r => r.id == id) then
    t.map (fun r =>
      if r.id == id then
        { id := r.id, org := tenant, config := e,
          created_at := r.created_at, updated_at := e.updatedAt }
      else r)
  else
    t ++ [{ id := id, org := tenant, config := e,
            created_at := e.createdAt, updated_at := e.updatedAt }]

/-- Modelled from the spec: body of the missing `delete<Kind>` store
method.  SQL pinned by the test (part_005 line 226): `DELETE FROM <kind>
WHERE id = $1 AND ($2::TEXT IS NULL OR org_id = $2::TEXT) RETURNING id`;
returns whether any row was deleted. -/
def deleteConfig {α : Type} (t : Table α) (id : String) (tenant : Option String) :
    Table α × Bool :=
  (t.filter (fun r => !(r.id == pdecode id && tenantPred tenant r.org)),
   t.any (fun r => r.id == pdecode id && tenantPred tenant r.org))

/-- The rows a tenant can see: the `WHERE $1::TEXT IS NULL OR org_id =
$1::TEXT` filter of the pinned list/count SQL. -/
def visibleRows {α : Type} (t : Table α) (tenant : Option String) : Table α :=
  t.filter (fun r => tenantPred tenant r.org)

/-- Insert an element into a key-sorted list, keeping it sorted by the
string key. -/
def insertByKey {β : Type} (key : β → String) (r : β) : List β → List β
  | [] => [r]
  | x :: xs => if key r ≤ key x then r :: x :: xs else x :: insertByKey key r xs

/-- Sort a list by a string key (insertion sort; the `ORDER BY id` of the
pinned list SQL). -/
def sortByKey {β : Type} (key : β → String) : List β → List β
  | [] => []
  | x :: xs => insertByKey key x (sortByKey key xs)

/-- Sort rows by id (`ORDER BY id` of the pinned list SQL). -/
def sortById {α : Type} (t : Table α) : Table α :=
  sortByKey (fun r => r.id) t

/-- A list page: items plus the exact total count. -/
structure Page (β : Type) where
  items : List β
  total : Nat
deriving Repr, DecidableEq

/-- Modelled from the spec: body of the missing `list<Kind>s` store
method.  SQL pinned by the test (part_005 lines 190-197): a count query
`SELECT COUNT(*) FROM <kind> WHERE $1::TEXT IS NULL OR org_id = $1::TEXT`
and a page query `SELECT * FROM <kind> WHERE $1::TEXT IS NULL OR org_id =
$1::TEXT ORDER BY id LIMIT $2 OFFSET $3`. -/
def listConfigRows {α : Type} (t : Table α) (limit offset : Nat)
    (tenant : Option String) : Page (Row α) :=
  ⟨((sortById (visibleRows t tenant)).drop offset).take limit,
   (visibleRows t tenant).length⟩

/-- The page of entities returned by `list<Kind>s(limit, offset, tenant)`. -/
def listConfigs {α : Type} (t : Table α) (limit offset : Nat)
    (tenant : Option String) : Page (Entity α) :=
  ⟨(listConfigRows t limit offset tenant).items.map mapRowToConfig,
   (listConfigRows t limit offset tenant).total⟩

/-! ### The runs table -/

/-- A run result as the API sees it: id, success flag, the id of the
config it ran, an opaque body (data, step results, error), and the two
run timestamps. -/
structure RunEnt where
  rid : String
  success : Bool
  configId : Option String
  body : String
  startedAt : Nat
  completedAt : Nat
deriving Repr, DecidableEq

/-- One row of the `runs` table: columns `id, org_id, config_id, data,
started_at, completed_at, success` (pinned by the `createRun` test SQL,
part_005 line 563). -/
structure RunRow where
  id : String
  org : Option String
  config_id : Option String
  data : RunEnt
  started_at : Nat
  completed_at : Nat
  success : Bool
deriving Repr, DecidableEq

/-- The `runs` table. -/
abbrev RunTable := List RunRow

/-- Modelled from the spec: body of the missing `createRun` store method.
SQL pinned by the test (part_005 line 563): a plain `INSERT INTO runs (id,
org_id, config_id, data, started_at, completed_at, success) VALUES ($1,
..., $7)` with no conflict clause and no tenant filter. -/
def createRun (t : RunTable) (r : RunEnt) (tenant : Option String) : RunTable :=
  t ++ [{ id := r.rid, org := tenant, config_id := r.configId, data := r,
          started_at := r.startedAt, completed_at := r.completedAt,
          success := r.success }]

/-- Modelled from the spec: body of the missing `getRun` store method,
same shape as the config reads: select by decoded id under the tenant
predicate. -/
def findRunRow (t : RunTable) (id : String) (tenant : Option String) :
    Option RunRow :=
  t.find? (fun r => r.id == pdecode id && tenantPred tenant r.org)

/-- The run entity returned by `getRun(id, tenant)`. -/
def getRun (t : RunTable) (id : String) (tenant : Option String) : Option RunEnt :=
  (findRunRow t id tenant).map (fun r => r.data)

/-- A run row visible under `tenant` and matching the optional
`configId` filter (`config_id = $2` appears in the list SQL exactly when a
configId is passed, part_005 lines 528-531 and 551-554). -/
def runVisible (tenant : Option String) (configId : Option String) (r : RunRow) :
    Bool :=
  tenantPred tenant r.org && (configId.isNone || r.config_id == configId)

/-- Sort run rows by id. -/
def sortRunById (t : RunTable) : RunTable :=
  sortByKey (fun r => r.id) t

/-- Modelled from the spec: body of the missing `listRuns` store method —
"list(limit, offset, tenant [, configId for runs]) → row page, stable
id-ordered; total is an exact count" (§4.3). -/
def listRunRows (t : RunTable) (limit offset : Nat) (configId : Option String)
    (tenant : Option String) : Page RunRow :=
  ⟨((sortRunById (t.filter (runVisible tenant configId))).drop offset).take limit,
   (t.filter (runVisible tenant configId)).length⟩

/-- Modelled from the spec: body of the missing `deleteAllRuns` store
method.  SQL pinned by the test (part_005 line 615): `DELETE FROM runs
WHERE $1::TEXT IS NULL OR org_id = $1::TEXT RETURNING id`. -/
def deleteAllRuns (t : RunTable) (tenant : Option String) : RunTable × Bool :=
  (t.filter (fun r => !(tenantPred tenant r.org)),
   t.any (fun r => tenantPred tenant r.org))

/-! ### Pooled-client resource accounting (`withClient`)

The missing store helper `withClient` acquires one client from the pool
per call and releases it on every exit path; the test pins that the client
is released even when the query rejects (part_005 lines 702-708) and that
a failed `pool.connect` propagates (lines 695-700, no client acquired).
-/

/-- Database failure modes observable through the mocked pool. -/
inductive DbErr where
  | connectFailed
  | queryFailed
deriving Repr, DecidableEq

/-- Whether the pool can hand out a client and whether queries on it
succeed. -/
structure DbEnv where
  connectOk : Bool
  queryOk : Bool
deriving Repr, DecidableEq

/-- How many clients a call took from the pool and how many it gave
back. -/
structure ClientLog where
  acquired : Nat
  released : Nat
deriving Repr, DecidableEq

/-- Modelled from the spec: the missing `withClient` helper — "a database
handle is acquired per call; release is guaranteed on all exit paths,
including when the caller's operation fails" (§4.3), i.e. acquire, run the
callback under try/finally, release. -/
def withClient {β : Type} (env : DbEnv) (f : Unit → Except DbErr β) :
    Except DbErr β × ClientLog :=
  if env.connectOk then
    match f () with
    | .ok b => (.ok b, ⟨1, 1⟩)
    | .error e => (.error e, ⟨1, 1⟩)
  else
    (.error .connectFailed, ⟨0, 0⟩)

/-- One SQL query against the acquired client: the pure result, or the
query's rejection. -/
def runQuery {β : Type} (env : DbEnv) (x : β) : Except DbErr β :=
  if env.queryOk then .ok x else .error .queryFailed

/-- The effectful `get<Kind>`: the pure lookup run through `withClient`. -/
def getConfigDb {α : Type} (env : DbEnv) (t : Table α) (id : String)
    (tenant : Option String) : Except DbErr (Option (Entity α)) × ClientLog :=
  withClient env (fun _ => runQuery env (getConfig t id tenant))

/-- The effectful `list<Kind>s`: count query then page query on one
client. -/
def listConfigsDb {α : Type} (env : DbEnv) (t : Table α) (limit offset : Nat)
    (tenant : Option String) : Except DbErr (Page (Entity α)) × ClientLog :=
  withClient env (fun _ => do
    let total ← runQuery env (visibleRows t tenant).length
    let page ← runQuery env (listConfigs t limit offset tenant)
    pure ⟨page.items, total⟩)

/-- The effectful `upsert<Kind>`. -/
def upsertConfigDb {α : Type} (env : DbEnv) (t : Table α) (id : String)
    (e : Entity α) (tenant : Option String) : Except DbErr (Table α) × ClientLog :=
  withClient env (fun _ => runQuery env (upsertConfig t id e tenant))

/-- The effectful `delete<Kind>`. -/
def deleteConfigDb {α : Type} (env : DbEnv) (t : Table α) (id : String)
    (tenant : Option String) : Except DbErr (Table α × Bool) × ClientLog :=
  withClient env (fun _ => runQuery env (deleteConfig t id tenant))

/-- The effectful `createRun`. -/
def createRunDb (env : DbEnv) (t : RunTable) (r : RunEnt)
    (tenant : Option String) : Except DbErr RunTable × ClientLog :=
  withClient env (fun _ => runQuery env (createRun t r tenant))

/-- The effectful `getRun`. -/
def getRunDb (env : DbEnv) (t : RunTable) (id : String)
    (tenant : Option String) : Except DbErr (Option RunEnt) × ClientLog :=
  withClient env (fun _ => runQuery env (getRun t id tenant))

/-- The effectful `listRuns`: page query then count query on one client. -/
def listRunsDb (env : DbEnv) (t : RunTable) (limit offset : Nat)
    (configId : Option String) (tenant : Option String) :
    Except DbErr (Page RunRow) × ClientLog :=
  withClient env (fun _ => do
    let page ← runQuery env (listRunRows t limit offset configId tenant)
    let total ← runQuery env (t.filter (runVisible tenant configId)).length
    pure ⟨page.items, total⟩)

/-- The effectful `deleteAllRuns`. -/
def deleteAllRunsDb (env : DbEnv) (t : RunTable) (tenant : Option String) :
    Except DbErr (RunTable × Bool) × ClientLog :=
  withClient env (fun _ => runQuery env (deleteAllRuns t tenant))

/-! ### Environment validation and startup (part_006 lines 57-77, 301-306)

`validateEnvironment` is source code in this tree; the model mirrors its
five checks in order.  JavaScript truthiness: an unset variable and the
empty string both fail a `!process.env.X` test.
-/

/-- The environment variables `validateEnvironment` reads.  `none` is an
unset variable. -/
structure Env where
  graphqlPort : Option String
  llmProvider : Option String
  openaiApiKey : Option String
  geminiApiKey : Option String
  datastoreType : Option String
  redisHost : Option String
  authToken : Option String
  supabaseUrl : Option String
deriving Repr, DecidableEq

/-- JavaScript truthiness of an environment variable: set and non-empty. -/
def isSet (o : Option String) : Bool :=
  match o with
  | some s => !(s == "")
  | none => false

/-- Direct embedding of `validateEnvironment` (part_006 lines 57-77): the
five checks in source order, each throwing an `Error` whose message names
the variable. -/
def validateEnvironment (e : Env) : Except String Unit :=
  if !isSet e.graphqlPort then
    .error "GRAPHQL_PORT is not set."
  else if !(e.llmProvider == some "GEMINI") && !isSet e.openaiApiKey then
    .error "OPENAI_API_KEY is not set."
  else if e.llmProvider == some "GEMINI" && !isSet e.geminiApiKey then
    .error "GEMINI_API_KEY is not set."
  else if e.datastoreType == some "redis" && !isSet e.redisHost then
    .error "REDIS_HOST is not set."
  else if !isSet e.authToken && !isSet e.supabaseUrl then
    .error "AUTH_TOKEN is not set and no other authentication provider is configured."
  else
    .ok ()

/-- Embedding of `startServer` (part_006 lines 80-171) restricted to its
environment-dependent outcome: `init()` (modelled from the spec as not
itself validating the environment — the spec assigns all startup
validation diagnostics to the "missing required variables" rule, §6) then
`validateEnvironment`, then the listen/setup path, which this model treats
as succeeding. -/
def startServer (e : Env) : Except String Unit :=
  validateEnvironment e

/-- Embedding of the top-level launch (part_006 lines 301-306):
`startServer().catch(error => { log; process.exit(1) })`; a normal start
keeps exit code 0. -/
def startupExitCode (e : Env) : Nat :=
  match startServer e with
  | .ok _ => 0
  | .error _ => 1

/-- Whether the variable named `v` is required-and-missing in `e`, per the
claim's enumeration: `GRAPHQL_PORT`; `OPENAI_API_KEY` when the provider is
not GEMINI; `GEMINI_API_KEY` when it is; `REDIS_HOST` when the datastore
backend is redis; `AUTH_TOKEN` when no other auth provider is
configured. -/
def requiredMissing (e : Env) (v : String) : Bool :=
  (v == "GRAPHQL_PORT" && !isSet e.graphqlPort) ||
  (v == "OPENAI_API_KEY" && (!(e.llmProvider == some "GEMINI") && !isSet e.openaiApiKey)) ||
  (v == "GEMINI_API_KEY" && (e.llmProvider == some "GEMINI" && !isSet e.geminiApiKey)) ||
  (v == "REDIS_HOST" && (e.datastoreType == some "redis" && !isSet e.redisHost)) ||
  (v == "AUTH_TOKEN" && (!isSet e.authToken && !isSet e.supabaseUrl))

/-! ### Server lifecycle: stop, restart (part_006 lines 176-233, 276-299)

`stopServer`, `startServer`'s instance bookkeeping and `restartServer` are
source code in this tree.  The model tracks the `currentServer` module
variable, whether its HTTP server is listening, and whether the listening
port is bound; it emits an event per lifecycle phase.  `stopServer` may
fail when `apolloServer.stop()` throws an error other than "not running";
in that case it nulls `currentServer` and rethrows without having closed
the HTTP server (part_006 lines 186-194, 227-232).
-/

/-- Lifecycle events of one `restartServer` call. -/
inductive Ev where
  | stopEv
  | waitEv
  | startEv
deriving Repr, DecidableEq

/-- A held server instance: whether its HTTP server is listening. -/
structure SrvInst where
  listening : Bool
deriving Repr, DecidableEq

/-- The process state `restartServer` manipulates: the `currentServer`
module variable and whether the GraphQL port is bound. -/
structure SrvWorld where
  current : Option SrvInst
  portBound : Bool
deriving Repr, DecidableEq

/-- `isServerRunning` (part_006 lines 238-240): a current instance exists
and its HTTP server is listening. -/
def isRunning (w : SrvWorld) : Bool :=
  match w.current with
  | some h => h.listening
  | none => false

/-- Result of `stopServer`: the new state, whether it threw, and the
events it emitted. -/
structure StopRes where
  world : SrvWorld
  failed : Bool
  evs : List Ev
deriving Repr, DecidableEq

/-- Embedding of `stopServer` (part_006 lines 176-233).  With no current
instance it returns at once.  If `apolloServer.stop()` throws a real error
the catch block nulls `currentServer` and rethrows — the HTTP server was
never closed, so the port keeps its previous state.  Otherwise the
WebSocket cleanup and `httpServer.close()` run (close frees the port
exactly when the server was listening), `currentServer` is nulled and the
call returns. -/
def stopServer (w : SrvWorld) (apolloStopThrows : Bool) : StopRes :=
  match w.current with
  | none => ⟨w, false, []⟩
  | some h =>
    if apolloStopThrows then
      ⟨⟨none, w.portBound⟩, true, []⟩
    else
      ⟨⟨none, if h.listening then false else w.portBound⟩, false, [.stopEv]⟩

/-- The instance-creating tail of `startServer` (part_006 lines 86-170):
listen on the port and store the new `currentServer`. -/
def startInstance (_w : SrvWorld) : SrvWorld × List Ev :=
  (⟨some ⟨true⟩, true⟩, [.startEv])

/-- Embedding of `restartServer` (part_006 lines 276-299): stop the
current instance when `status.isRunning || currentServer` holds, then the
fixed one-second delay ("wait to ensure the port is released"), then
`startServer`; a `stopServer` throw is caught and rethrown without
starting. -/
def restartServer (w : SrvWorld) (apolloStopThrows : Bool) :
    (SrvWorld × Bool) × List Ev :=
  if isRunning w || w.current.isSome then
    let sr := stopServer w apolloStopThrows
    if sr.failed then
      ((sr.world, true), sr.evs)
    else
      let (w2, e2) := startInstance sr.world
      ((w2, false), sr.evs ++ [.waitEv] ++ e2)
  else
    let (w2, e2) := startInstance w
    ((w2, false), [.waitEv] ++ e2)

/-- The state `restartServer` passes to `startServer` on its non-throwing
path: the post-stop world (or the unchanged world when there was nothing
to stop). -/
def preStartWorld (w : SrvWorld) (apolloStopThrows : Bool) : SrvWorld :=
  if isRunning w || w.current.isSome then (stopServer w apolloStopThrows).world
  else w

/-! ### Workflow executor failure semantics

Modelled from the spec: the workflow executor (`workflow-executor.ts`) is
not among the sources in this tree — only its GraphQL result type
(part_007 lines 407-415) and its callers are.  The model follows the
state machine of spec §4.5: READY → RUNNING_STEP(i) → ... →
FINAL_TRANSFORM → DONE, with STEP_FAILED setting `success=false`,
`error=<step error>`, skipping the final transform and setting
`data = null`.  Step running and expression evaluation are abstract
parameters; the executor emits an event per step started and one when the
final transform is evaluated, so "the final transform is not evaluated" is
an assertion about the event trace.
-/

/-- A JSON-ish value threaded through the executor. -/
inductive JVal where
  | jnull
  | jbool (b : Bool)
  | jstr (s : String)
  | jnum (n : Int)
deriving Repr, DecidableEq

/-- The accumulated execution context: the payload extended with one
binding per completed step id. -/
abbrev Ctx := List (String × JVal)

/-- A workflow step as the executor sees it (id plus an opaque
definition the abstract step runner interprets). -/
structure WStep where
  sid : String
deriving Repr, DecidableEq

/-- One `WorkflowStepResult` (part_007 lines 399-405). -/
structure StepOutcome where
  stepId : String
  success : Bool
  transformedData : Option JVal
  error : Option String
deriving Repr, DecidableEq

/-- One `WorkflowResult` (part_007 lines 407-415). -/
structure WfResult where
  success : Bool
  data : Option JVal
  stepResults : List StepOutcome
  error : Option String
deriving Repr, DecidableEq

/-- Executor trace events: step `i` started, or the final transform was
evaluated. -/
inductive ExEv where
  | stepStarted (i : Nat)
  | finalEval
deriving Repr, DecidableEq

/-- Modelled from the spec: RUNNING_STEP states of §4.5.  Run the steps in
order from index `i`; on success bind the transformed value under the step
id and continue; on the first failure stop with that step's error. -/
def execSteps (runStep : WStep → Ctx → Except String JVal) :
    List WStep → Ctx → Nat → List StepOutcome × Ctx × Option String × List ExEv
  | [], ctx, _ => ([], ctx, none, [])
  | st :: rest, ctx, i =>
    match runStep st ctx with
    | .ok v =>
      let (srs, ctx', err, evs) := execSteps runStep rest ((st.sid, v) :: ctx) (i + 1)
      (⟨st.sid, true, some v, none⟩ :: srs, ctx', err, .stepStarted i :: evs)
    | .error msg =>
      ([⟨st.sid, false, none, some msg⟩], ctx, some msg, [.stepStarted i])

/-- Modelled from the spec: the executor of §4.5.  After the step phase,
STEP_FAILED yields `success=false`, `error=<step error>`, `data=null`
without touching the final transform, while the success path evaluates the
final transform (FINAL_TRANSFORM) and emits its value or its error. -/
def executeWorkflow (runStep : WStep → Ctx → Except String JVal)
    (finalEval : Ctx → Except String JVal) (steps : List WStep)
    (payload : Ctx) : WfResult × List ExEv :=
  let (srs, ctx, err, evs) := execSteps runStep steps payload 0
  match err with
  | some msg =>
    ({ success := false, data := none, stepResults := srs, error := some msg }, evs)
  | none =>
    match finalEval ctx with
    | .ok v =>
      ({ success := true, data := some v, stepResults := srs, error := none },
       evs ++ [.finalEval])
    | .error msg =>
      ({ success := false, data := none, stepResults := srs, error := some msg },
       evs ++ [.finalEval])

/-! ### The MCP run-sample cache (src/packages/core/mcp/tools.ts)

`workflowSampleCache` is source code in this tree: a module-level
`new Map<string, any>()` (line 44), written by the
`generate_final_transform` handler with `workflowSampleCache.set(
workflowId, storedSampleData)` (line 193) and read by the
`validate_jsonata` handler with `workflowSampleCache.get(workflowId)`
(line 275).
-/

/-- The cached sample for one workflow (opaque to the cache). -/
structure SampleData where
  blob : String
deriving Repr, DecidableEq

/-- The in-memory map, as an association list whose keys are workflow
ids. -/
abbrev SampleCache := List (String × SampleData)

/-- JavaScript `Map.set`: replace the entry under the key if present,
otherwise append one. -/
def cacheSet (c : SampleCache) (k : String) (v : SampleData) : SampleCache :=
  if c.any (fun p => p.1 == k) then
    c.map (fun p => if p.1 == k then (k, v) else p)
  else
    c ++ [(k, v)]

/-- JavaScript `Map.get`. -/
def cacheGet (c : SampleCache) (k : String) : Option SampleData :=
  (c.find? (fun p => p.1 == k)).map (fun p => p.2)

/-- The cache effect of one `generate_final_transform` call for
`workflowId` (tools.ts line 193): store the freshly computed sample under
the workflow id alone. -/
def generateFinalTransformCache (c : SampleCache) (workflowId : String)
    (sample : SampleData) : SampleCache :=
  cacheSet c workflowId sample

/-- The cache read of one `validate_jsonata` call for `workflowId`
(tools.ts line 275). -/
def validateJsonataRead (c : SampleCache) (workflowId : String) :
    Option SampleData :=
  cacheGet c workflowId

/-- The number of cache entries held under a key. -/
def keyCount (c : SampleCache) (k : String) : Nat :=
  (c.filter (fun p => p.1 == k)).length

/-! ### Helper lemmas -/

theorem tenantPred_self (t : Option String) : tenantPred t t = true := by
  cases t <;> simp [tenantPred]

theorem tenantPred_some_eq {t1 : String} {o : Option String}
    (h : tenantPred (some t1) o = true) : o = some t1 := by
  simpa [tenantPred] using h

theorem mem_insertByKey {β : Type} (key : β → String) (r a : β) (l : List β) :
    a ∈ insertByKey key r l ↔ a = r ∨ a ∈ l := by
  induction l with
  | nil => simp [insertByKey]
  | cons x xs ih =>
    by_cases h : key r ≤ key x
    · simp [insertByKey, h]
    · simp only [insertByKey, if_neg h, List.mem_cons, ih]
      tauto

theorem mem_sortByKey {β : Type} (key : β → String) (a : β) (l : List β) :
    a ∈ sortByKey key l ↔ a ∈ l := by
  induction l with
  | nil => simp [sortByKey]
  | cons x xs ih => simp [sortByKey, mem_insertByKey, ih]

theorem length_insertByKey {β : Type} (key : β → String) (r : β) (l : List β) :
    (insertByKey key r l).length = l.length + 1 := by
  induction l with
  | nil => simp [insertByKey]
  | cons x xs ih =>
    by_cases h : key r ≤ key x
    · simp [insertByKey, h]
    · simp [insertByKey, h, ih]

theorem length_sortByKey {β : Type} (key : β → String) (l : List β) :
    (sortByKey key l).length = l.length := by
  induction l with
  | nil => rfl
  | cons x xs ih => simp [sortByKey, length_insertByKey, ih]

theorem sorted_insertByKey {β : Type} (key : β → String) (r : β) {l : List β}
    (h : List.Pairwise (fun a b => key a ≤ key b) l) :
    List.Pairwise (fun a b => key a ≤ key b) (insertByKey key r l) := by
  induction l with
  | nil => simp [insertByKey]
  | cons x xs ih =>
    rcases List.pairwise_cons.mp h with ⟨hx, hxs⟩
    by_cases hle : key r ≤ key x
    · simp only [insertByKey, if_pos hle]
      refine List.pairwise_cons.mpr ⟨?_, h⟩
      intro b hb
      rcases List.mem_cons.mp hb with hb | hb
      · exact hb ▸ hle
      · exact le_trans hle (hx b hb)
    · simp only [insertByKey, if_neg hle]
      refine List.pairwise_cons.mpr ⟨?_, ih hxs⟩
      intro b hb
      rcases (mem_insertByKey key r b xs).mp hb with hb | hb
      · exact hb ▸ le_of_not_le hle
      · exact hx b hb

theorem sorted_sortByKey {β : Type} (key : β → String) (l : List β) :
    List.Pairwise (fun a b => key a ≤ key b) (sortByKey key l) := by
  induction l with
  | nil => simp [sortByKey]
  | cons x xs ih => exact sorted_insertByKey key x ih

theorem findConfigRow_upsert_self {α : Type} (s : Table α) (id : String)
    (e : Entity α) (tenant : Option String) (hid : pdecode id = id) :
    ∃ c, findConfigRow (upsertConfig s id e tenant) id tenant =
      some { id := id, org := tenant, config := e, created_at := c,
             updated_at := e.updatedAt } := by
  induction s with
  | nil =>
    refine ⟨e.createdAt, ?_⟩
    simp [upsertConfig, findConfigRow, hid, tenantPred_self]
  | cons r rs ih =>
    by_cases hb : r.id = id
    · refine ⟨r.created_at, ?_⟩
      have hany : (r :: rs).any (fun x => x.id == id) = true := by simp [hb]
      simp [upsertConfig, hany, findConfigRow, hid, hb, tenantPred_self]
    · have hbeq : (r.id == id) = false := by simp [hb]
      have ha' : rs.any (fun x => x.id == id) = true ∨
          rs.any (fun x => x.id == id) = false := by
        cases rs.any (fun x => x.id == id) <;> simp
      obtain ⟨c, hc⟩ := ih
      refine ⟨c, ?_⟩
      rcases ha' with ha | ha
      · have hany : (r :: rs).any (fun x => x.id == id) = true := by
          simp [List.any_cons, ha]
        have hrs : upsertConfig rs id e tenant =
            rs.map (fun x =>
              if x.id == id then
                { id := x.id, org := tenant, config := e,
                  created_at := x.created_at, updated_at := e.updatedAt }
              else x) := by
          rw [upsertConfig, if_pos ha]
        rw [upsertConfig, if_pos hany, List.map_cons]
        rw [findConfigRow] at hc ⊢
        rw [if_neg (by simp [hbeq])]
        rw [List.find?_cons_of_neg _ (by simp [hb, hid])]
        rw [hrs] at hc
        exact hc
      · have hany : (r :: rs).any (fun x => x.id == id) = false := by
          simp [List.any_cons, hbeq, ha]
        have hrs : upsertConfig rs id e tenant =
            rs ++ [{ id := id, org := tenant, config := e,
                     created_at := e.createdAt, updated_at := e.updatedAt }] := by
          rw [upsertConfig, if_neg (by simp [ha])]
        rw [upsertConfig, if_neg (by simp [hany]), List.cons_append]
        rw [findConfigRow] at hc ⊢
        rw [List.find?_cons_of_neg _ (by simp [hb, hid])]
        rw [hrs] at hc
        exact hc

theorem cacheGet_set_self (c : SampleCache) (k : String) (v : SampleData) :
    cacheGet (cacheSet c k v) k = some v := by
  induction c with
  | nil => simp [cacheSet, cacheGet]
  | cons p ps ih =>
    by_cases hb : p.1 = k
    · have hany : (p :: ps).any (fun q => q.1 == k) = true := by simp [hb]
      simp [cacheSet, hany, cacheGet, hb]
    · have hbeq : (p.1 == k) = false := by simp [hb]
      have ha' : ps.any (fun q => q.1 == k) = true ∨
          ps.any (fun q => q.1 == k) = false := by
        cases ps.any (fun q => q.1 == k) <;> simp
      rcases ha' with ha | ha
      · have hany : (p :: ps).any (fun q => q.1 == k) = true := by
          simp [List.any_cons, ha]
        have hps : cacheSet ps k v =
            ps.map (fun q => if q.1 == k then (k, v) else q) := by
          rw [cacheSet, if_pos ha]
        rw [cacheGet] at ih ⊢
        rw [cacheSet, if_pos hany, List.map_cons, if_neg (by simp [hbeq])]
        rw [List.find?_cons_of_neg _ (by simp [hb])]
        rw [hps] at ih
        exact ih
      · have hany : (p :: ps).any (fun q => q.1 == k) = false := by
          simp [List.any_cons, hbeq, ha]
        have hps : cacheSet ps k v = ps ++ [(k, v)] := by
          rw [cacheSet, if_neg (by simp [ha])]
        rw [cacheGet] at ih ⊢
        rw [cacheSet, if_neg (by simp [hany]), List.cons_append]
        rw [List.find?_cons_of_neg _ (by simp [hb])]
        rw [hps] at ih
        exact ih

theorem cacheGet_map_other (c : SampleCache) (k k' : String) (v : SampleData)
    (hne : k' ≠ k) :
    cacheGet (c.map (fun q => if q.1 == k then (k, v) else q)) k' = cacheGet c k' := by
  induction c with
  | nil => rfl
  | cons p ps ih =>
    by_cases hb : p.1 = k
    · rw [cacheGet, cacheGet] at ih ⊢
      rw [List.map_cons, if_pos (by simp [hb] : (p.1 == k) = true)]
      rw [List.find?_cons_of_neg _ (by simpa using Ne.symm hne),
          List.find?_cons_of_neg _ (by simpa [hb] using Ne.symm hne)]
      exact ih
    · rw [cacheGet, cacheGet] at ih ⊢
      rw [List.map_cons, if_neg (by simp [hb] : ¬(p.1 == k) = true)]
      by_cases hp : p.1 = k'
      · rw [List.find?_cons_of_pos _ (by simp [hp]),
            List.find?_cons_of_pos _ (by simp [hp])]
      · rw [List.find?_cons_of_neg _ (by simp [hp]),
            List.find?_cons_of_neg _ (by simp [hp])]
        exact ih

theorem cacheGet_append_other (c : SampleCache) (k k' : String) (v : SampleData)
    (hne : k' ≠ k) : cacheGet (c ++ [(k, v)]) k' = cacheGet c k' := by
  induction c with
  | nil =>
    rw [cacheGet, cacheGet]
    rw [List.nil_append, List.find?_cons_of_neg _ (by simpa using Ne.symm hne)]
  | cons p ps ih =>
    rw [cacheGet, cacheGet] at ih ⊢
    by_cases hp : p.1 = k'
    · rw [List.cons_append, List.find?_cons_of_pos _ (by simp [hp]),
          List.find?_cons_of_pos _ (by simp [hp])]
    · rw [List.cons_append, List.find?_cons_of_neg _ (by simp [hp]),
          List.find?_cons_of_neg _ (by simp [hp])]
      exact ih

theorem cacheGet_set_other (c : SampleCache) (k k' : String) (v : SampleData)
    (hne : k' ≠ k) : cacheGet (cacheSet c k v) k' = cacheGet c k' := by
  by_cases ha : c.any (fun q => q.1 == k) = true
  · rw [cacheSet, if_pos ha]
    exact cacheGet_map_other c k k' v hne
  · rw [cacheSet, if_neg ha]
    exact cacheGet_append_other c k k' v hne

theorem keyCount_map_set (c : SampleCache) (k kk : String) (v : SampleData) :
    keyCount (c.map (fun q => if q.1 == k then (k, v) else q)) kk = keyCount c kk := by
  induction c with
  | nil => rfl
  | cons p ps ih =>
    rw [keyCount, keyCount] at ih ⊢
    by_cases hb : p.1 = k
    · rw [List.map_cons, if_pos (by simp [hb] : (p.1 == k) = true)]
      by_cases hk : kk = k
      · rw [List.filter_cons, List.filter_cons]
        simp only [show ((k, v).1 == kk) = true from by simp [hk],
          show (p.1 == kk) = true from by simp [hb, hk]]
        simpa using ih
      · rw [List.filter_cons, List.filter_cons]
        simp only [show ((k, v).1 == kk) = false from by simp [Ne.symm hk],
          show (p.1 == kk) = false from by simp [hb]; exact fun h => hk (h.symm)]
        exact ih
    · rw [List.map_cons, if_neg (by simp [hb] : ¬(p.1 == k) = true)]
      rw [List.filter_cons, List.filter_cons]
      cases hkk : (p.1 == kk) <;> simpa [hkk] using ih

theorem keyCount_eq_zero_of_not_any (c : SampleCache) (k : String)
    (ha : ¬c.any (fun q => q.1 == k) = true) : keyCount c k = 0 := by
  rw [keyCount, List.length_eq_zero]
  rw [List.filter_eq_nil_iff]
  intro q hq
  intro hqk
  exact ha (List.any_eq_true.mpr ⟨q, hq, hqk⟩)

theorem keyCount_set_le_one (c : SampleCache) (k kk : String) (v : SampleData)
    (h : keyCount c kk ≤ 1) : keyCount (cacheSet c k v) kk ≤ 1 := by
  by_cases ha : c.any (fun q => q.1 == k) = true
  · rw [cacheSet, if_pos ha, keyCount_map_set]
    exact h
  · rw [cacheSet, if_neg ha, keyCount, List.filter_append, List.length_append]
    by_cases hk : k = kk
    · have h0 : keyCount c kk = 0 := hk ▸ keyCount_eq_zero_of_not_any c k ha
      rw [keyCount] at h0
      simp [h0, List.filter, hk]
    · have : List.filter (fun p => p.1 == kk) [(k, v)] = [] := by
        simp [List.filter, show (k == kk) = false from by simp [hk]]
      rw [this]
      simpa [keyCount] using h

/-! ### Claim theorems -/

/-- C8: the run-sample cache used by the JSONata-validation helper
(`workflowSampleCache` in `src/packages/core/mcp/tools.ts`) is a
per-process in-memory map keyed by the workflow id alone, holding at most
one entry per workflow id; `generate_final_transform` replaces the
workflow's cached entry (leaving entries of every other workflow id
untouched), and `validate_jsonata` reads exactly that entry. -/
theorem c8_run_sample_cache :
    (∀ (c : SampleCache) (wf : String) (s : SampleData) (k : String),
        keyCount c k ≤ 1 →
          keyCount (generateFinalTransformCache c wf s) k ≤ 1)
  ∧ (∀ (c : SampleCache) (wf : String) (s : SampleData),
        validateJsonataRead (generateFinalTransformCache c wf s) wf = some s)
  ∧ (∀ (c : SampleCache) (wf : String) (s : SampleData) (k : String), k ≠ wf →
        validateJsonataRead (generateFinalTransformCache c wf s) k =
          validateJsonataRead c k)
  ∧ (∀ (c : SampleCache) (wf : String),
        validateJsonataRead c wf = cacheGet c wf) := by
  refine ⟨?_, ?_, ?_, ?_⟩
  · intro c wf s k h
    exact keyCount_set_le_one c wf k s h
  · intro c wf s
    exact cacheGet_set_self c wf s
  · intro c wf s k hk
    exact cacheGet_set_other c wf k s hk
  · intro c wf
    rfl

/-- C8 witness: a concrete cache holding one entry for workflow `w1`;
a `generate_final_transform` call for `w1` replaces it, keeps at most one
entry per id, and leaves `w2` untouched. -/
theorem c8_run_sample_cache_witness :
    keyCount ([("w1", ⟨"old"⟩)] : SampleCache) "w1" ≤ 1
  ∧ keyCount (generateFinalTransformCache [("w1", ⟨"old"⟩)] "w1" ⟨"new"⟩) "w1" ≤ 1
  ∧ validateJsonataRead (generateFinalTransformCache [("w1", ⟨"old"⟩)] "w1" ⟨"new"⟩)
      "w1" = some ⟨"new"⟩
  ∧ ("w2" : String) ≠ "w1"
  ∧ validateJsonataRead (generateFinalTransformCache [("w1", ⟨"old"⟩)] "w1" ⟨"new"⟩)
      "w2" = validateJsonataRead ([("w1", ⟨"old"⟩)] : SampleCache) "w2" :=
  ⟨by decide,
   c8_run_sample_cache.1 [("w1", ⟨"old"⟩)] "w1" ⟨"new"⟩ "w1" (by decide),
   c8_run_sample_cache.2.1 [("w1", ⟨"old"⟩)] "w1" ⟨"new"⟩,
   by decide,
   c8_run_sample_cache.2.2.1 [("w1", ⟨"old"⟩)] "w1" ⟨"new"⟩ "w2" (by decide)⟩

/-- C9: every data-store operation acquires one pooled database client for
the duration of that single call and releases it on every exit path: for
every pool/query environment — including a rejecting query and a failing
connect — and for every callback, the number of released clients equals
the number of acquired clients (and at most one client is taken per
call); each of the eight store operations inherits this balance. -/
theorem c9_with_client_release :
    (∀ (β : Type) (env : DbEnv) (f : Unit → Except DbErr β),
        (withClient env f).2.released = (withClient env f).2.acquired
      ∧ (withClient env f).2.acquired ≤ 1)
  ∧ (∀ (α : Type) (env : DbEnv) (t : Table α) (id : String) (tenant : Option String),
        (getConfigDb env t id tenant).2.released = (getConfigDb env t id tenant).2.acquired)
  ∧ (∀ (α : Type) (env : DbEnv) (t : Table α) (limit offset : Nat) (tenant : Option String),
        (listConfigsDb env t limit offset tenant).2.released =
          (listConfigsDb env t limit offset tenant).2.acquired)
  ∧ (∀ (α : Type) (env : DbEnv) (t : Table α) (id : String) (e : Entity α)
        (tenant : Option String),
        (upsertConfigDb env t id e tenant).2.released =
          (upsertConfigDb env t id e tenant).2.acquired)
  ∧ (∀ (α : Type) (env : DbEnv) (t : Table α) (id : String) (tenant : Option String),
        (deleteConfigDb env t id tenant).2.released =
          (deleteConfigDb env t id tenant).2.acquired)
  ∧ (∀ (env : DbEnv) (t : RunTable) (r : RunEnt) (tenant : Option String),
        (createRunDb env t r tenant).2.released = (createRunDb env t r tenant).2.acquired)
  ∧ (∀ (env : DbEnv) (t : RunTable) (id : String) (tenant : Option String),
        (getRunDb env t id tenant).2.released = (getRunDb env t id tenant).2.acquired)
  ∧ (∀ (env : DbEnv) (t : RunTable) (limit offset : Nat) (cid tenant : Option String),
        (listRunsDb env t limit offset cid tenant).2.released =
          (listRunsDb env t limit offset cid tenant).2.acquired)
  ∧ (∀ (env : DbEnv) (t : RunTable) (tenant : Option String),
        (deleteAllRunsDb env t tenant).2.released =
          (deleteAllRunsDb env t tenant).2.acquired) := by
  have hlog : ∀ (β : Type) (env : DbEnv) (f : Unit → Except DbErr β),
      (withClient env f).2.released = (withClient env f).2.acquired
    ∧ (withClient env f).2.acquired ≤ 1 := by
    intro β env f
    rw [withClient]
    cases env.connectOk
    · simp
    · simp only [if_pos rfl]
      cases f () <;> simp
  refine ⟨hlog, ?_, ?_, ?_, ?_, ?_, ?_, ?_, ?_⟩
  · intro α env t id tenant
    exact (hlog _ env _).1
  · intro α env t limit offset tenant
    exact (hlog _ env _).1
  · intro α env t id e tenant
    exact (hlog _ env _).1
  · intro α env t id tenant
    exact (hlog _ env _).1
  · intro env t r tenant
    exact (hlog _ env _).1
  · intro env t id tenant
    exact (hlog _ env _).1
  · intro env t limit offset cid tenant
    exact (hlog _ env _).1
  · intro env t tenant
    exact (hlog _ env _).1

/-- C1: tenant isolation.  For any two (non-null) tenant ids `t1 ≠ t2`:
every row a `get` or `list` invoked with tenant `t1` returns carries
`org = some t1` and so is never a record whose last write (`upsert` or
`createRun`) happened under `t2` — writes under `t2` stamp `org = some
t2` (and the operations below are the only writers of the model's
state). -/
theorem c1_tenant_isolation {α : Type} (t1 t2 : String) (hne : t1 ≠ t2) :
    (∀ (s : Table α) (id : String) (r : Row α),
        findConfigRow s id (some t1) = some r → r.org ≠ some t2)
  ∧ (∀ (s : Table α) (limit offset : Nat) (r : Row α),
        r ∈ (listConfigRows s limit offset (some t1)).items → r.org ≠ some t2)
  ∧ (∀ (s : Table α) (id : String) (e : Entity α) (r : Row α),
        r ∈ upsertConfig s id e (some t2) → r.id = id → r.org = some t2)
  ∧ (∀ (s : RunTable) (id : String) (r : RunRow),
        findRunRow s id (some t1) = some r → r.org ≠ some t2)
  ∧ (∀ (s : RunTable) (limit offset : Nat) (cid : Option String) (r : RunRow),
        r ∈ (listRunRows s limit offset cid (some t1)).items → r.org ≠ some t2)
  ∧ (∀ (s : RunTable) (re : RunEnt) (r : RunRow),
        r ∈ createRun s re (some t2) → r ∉ s → r.org = some t2) := by
  have horg : ∀ (o : Option String), tenantPred (some t1) o = true → o ≠ some t2 := by
    intro o h
    rw [tenantPred_some_eq h]
    simp only [ne_eq, Option.some.injEq]
    exact hne
  refine ⟨?_, ?_, ?_, ?_, ?_, ?_⟩
  · intro s id r h
    rw [findConfigRow] at h
    have hp := List.find?_some h
    rw [Bool.and_eq_true] at hp
    exact horg r.org hp.2
  · intro s limit offset r hr
    have h1 : r ∈ (sortById (visibleRows s (some t1))).drop offset :=
      List.take_subset _ _ hr
    have h2 : r ∈ sortById (visibleRows s (some t1)) := List.drop_subset _ _ h1
    have h3 : r ∈ visibleRows s (some t1) := by
      rw [sortById] at h2
      exact (mem_sortByKey _ r _).mp h2
    exact horg r.org (List.mem_filter.mp h3).2
  · intro s id e r hr hid
    rw [upsertConfig] at hr
    by_cases hany : s.any (fun x => x.id == id) = true
    · rw [if_pos hany] at hr
      obtain ⟨r₀, hr₀, hfr⟩ := List.mem_map.mp hr
      cases hfb : (r₀.id == id)
      · rw [if_neg (by simp [hfb])] at hfr
        subst hfr
        simp [hid] at hfb
      · rw [if_pos (by simp [hfb])] at hfr
        subst hfr
        rfl
    · rw [if_neg hany] at hr
      rcases List.mem_append.mp hr with h | h
      · exact absurd (List.any_eq_true.mpr ⟨r, h, by simp [hid]⟩) hany
      · simp only [List.mem_singleton] at h
        subst h
        rfl
  · intro s id r h
    rw [findRunRow] at h
    have hp := List.find?_some h
    rw [Bool.and_eq_true] at hp
    exact horg r.org hp.2
  · intro s limit offset cid r hr
    have h1 : r ∈ (sortRunById (s.filter (runVisible (some t1) cid))).drop offset :=
      List.take_subset _ _ hr
    have h2 : r ∈ sortRunById (s.filter (runVisible (some t1) cid)) :=
      List.drop_subset _ _ h1
    have h3 : r ∈ s.filter (runVisible (some t1) cid) := by
      rw [sortRunById] at h2
      exact (mem_sortByKey _ r _).mp h2
    have h4 : runVisible (some t1) cid r = true := (List.mem_filter.mp h3).2
    rw [runVisible, Bool.and_eq_true] at h4
    exact horg r.org h4.1
  · intro s re r hr hnot
    rw [createRun] at hr
    rcases List.mem_append.mp hr with h | h
    · exact absurd h hnot
    · simp only [List.mem_singleton] at h
      subst h
      rfl

/-- C1 witness: with concrete tenants `t1 ≠ t2`, a `get` under `t1` never
returns the concrete row stored under `t2`. -/
theorem c1_tenant_isolation_witness :
    ("t1" : String) ≠ "t2"
  ∧ findConfigRow ([⟨"x", some "t2", ⟨5, 1, 1⟩, 1, 1⟩] : Table Nat) "x" (some "t1") ≠
      some ⟨"x", some "t2", ⟨5, 1, 1⟩, 1, 1⟩ :=
  ⟨by decide,
   fun h => (c1_tenant_isolation (α := Nat) "t1" "t2" (by decide)).1 _ "x" _ h rfl⟩

/-- C10: config upserts resolve id conflicts on the id alone, ignoring
tenant: when a row with the id already exists (under whatever tenant),
upserting under the caller's tenant keeps the table's ids unchanged (no
second record is created), rewrites the conflicting row's payload and
reassigns its stored tenant to the caller's tenant, and leaves every
other row untouched. -/
theorem c10_upsert_id_conflict {α : Type} (s : Table α) (id : String)
    (e : Entity α) (tenant : Option String)
    (hex : s.any (fun r => r.id == id) = true) :
    ((upsertConfig s id e tenant).map (fun r => r.id) = s.map (fun r => r.id))
  ∧ (∀ r ∈ upsertConfig s id e tenant, r.id = id → r.org = tenant ∧ r.config = e)
  ∧ (∀ r ∈ upsertConfig s id e tenant, r.id ≠ id → r ∈ s) := by
  refine ⟨?_, ?_, ?_⟩
  · rw [upsertConfig, if_pos hex, List.map_map]
    apply List.map_congr_left
    intro r hr
    cases hfb : (r.id == id)
    · rw [Function.comp_apply, if_neg (by simp [hfb])]
    · rw [Function.comp_apply, if_pos hfb]
  · intro r hr hid
    rw [upsertConfig, if_pos hex] at hr
    obtain ⟨r₀, hr₀, hfr⟩ := List.mem_map.mp hr
    cases hfb : (r₀.id == id)
    · rw [if_neg (by simp [hfb])] at hfr
      subst hfr
      simp [hid] at hfb
    · rw [if_pos (by simp [hfb])] at hfr
      subst hfr
      exact ⟨rfl, rfl⟩
  · intro r hr hid
    rw [upsertConfig, if_pos hex] at hr
    obtain ⟨r₀, hr₀, hfr⟩ := List.mem_map.mp hr
    cases hfb : (r₀.id == id)
    · rw [if_neg (by simp [hfb])] at hfr
      subst hfr
      exact hr₀
    · rw [if_pos (by simp [hfb])] at hfr
      subst hfr
      simp only [] at hid
      exact absurd (by simpa using hfb) hid

/-- C10 witness: a concrete table holding id `x` under tenant `t2`;
upserting `x` under tenant `t1` keeps the single row (same ids). -/
theorem c10_upsert_id_conflict_witness :
    (([⟨"x", some "t2", ⟨5, 1, 1⟩, 1, 1⟩] : Table Nat).any (fun r => r.id == "x")) = true
  ∧ (upsertConfig ([⟨"x", some "t2", ⟨5, 1, 1⟩, 1, 1⟩] : Table Nat) "x" ⟨9, 2, 3⟩
      (some "t1")).map (fun r => r.id) =
      ([⟨"x", some "t2", ⟨5, 1, 1⟩, 1, 1⟩] : Table Nat).map (fun r => r.id) :=
  ⟨by decide,
   (c10_upsert_id_conflict ([⟨"x", some "t2", ⟨5, 1, 1⟩, 1, 1⟩] : Table Nat) "x"
     ⟨9, 2, 3⟩ (some "t1") (by decide)).1⟩

/-- C3 counterexample: the claimed round-trip fails for a percent-encoded
id.  Upserting under id `a%3Ab` writes a row (the table is no longer
empty), but `get` URL-decodes its id argument to `a:b` before lookup, so
`get("a%3Ab", t)` returns null, not the stored entity. -/
theorem c3_store_roundtrip_counterexample :
    upsertConfig ([] : Table Nat) "a%3Ab" ⟨7, 1, 2⟩ (some "t") ≠ []
  ∧ getConfig (upsertConfig ([] : Table Nat) "a%3Ab" ⟨7, 1, 2⟩ (some "t"))
      "a%3Ab" (some "t") = none := by
  constructor
  · decide
  · decide

/-- C3 amended: for every entity kind, tenant, entity and every id that
URL-decoding leaves unchanged, `get(id, t)` after `upsert(id, e, t)`
returns `e` up to the `createdAt`/`updatedAt` timestamps; and for every id
whatsoever, `get(id, t)` after `delete(id, t)` returns null. -/
theorem c3_store_roundtrip_amended {α : Type} (s : Table α) (id : String)
    (e : Entity α) (tenant : Option String) :
    (pdecode id = id →
      ∃ c u, getConfig (upsertConfig s id e tenant) id tenant =
        some { payload := e.payload, createdAt := c, updatedAt := u })
  ∧ getConfig (deleteConfig s id tenant).1 id tenant = none := by
  constructor
  · intro hid
    obtain ⟨c, hc⟩ := findConfigRow_upsert_self s id e tenant hid
    refine ⟨c, e.updatedAt, ?_⟩
    rw [getConfig, hc]
    rfl
  · rw [getConfig, findConfigRow, deleteConfig]
    have hnone : List.find? (fun r => r.id == pdecode id && tenantPred tenant r.org)
        (List.filter (fun r => !(r.id == pdecode id && tenantPred tenant r.org)) s) =
        none := by
      rw [List.find?_eq_none]
      intro x hx
      have h2 := (List.mem_filter.mp hx).2
      simp only [Bool.not_eq_eq_eq_not, Bool.not_true] at h2
      simp [h2]
    rw [hnone]
    rfl

/-- C3 witness: the amended round-trip at the escape-free id `w1`. -/
theorem c3_store_roundtrip_amended_witness :
    pdecode "w1" = "w1"
  ∧ (∃ c u, getConfig (upsertConfig ([] : Table Nat) "w1" ⟨7, 1, 2⟩ (some "t"))
      "w1" (some "t") = some { payload := 7, createdAt := c, updatedAt := u })
  ∧ getConfig (deleteConfig ([⟨"w1", some "t", ⟨7, 1, 2⟩, 1, 2⟩] : Table Nat)
      "w1" (some "t")).1 "w1" (some "t") = none :=
  ⟨by decide,
   (c3_store_roundtrip_amended ([] : Table Nat) "w1" ⟨7, 1, 2⟩ (some "t")).1 (by decide),
   (c3_store_roundtrip_amended ([⟨"w1", some "t", ⟨7, 1, 2⟩, 1, 2⟩] : Table Nat)
     "w1" ⟨7, 1, 2⟩ (some "t")).2⟩

/-- C4 counterexample: writes are not tenant-filtered.  A row stored under
tenant `t2` fails the predicate for tenant `t1`, yet an upsert invoked
under `t1` with the same id modifies that very row: before the upsert a
`get` under `t2` sees the record, afterwards it does not. -/
theorem c4_tenant_filter_counterexample :
    tenantPred (some "t1") (some "t2") = false
  ∧ getConfig ([⟨"x", some "t2", ⟨5, 1, 1⟩, 1, 1⟩] : Table Nat) "x" (some "t2") =
      some ⟨5, 1, 1⟩
  ∧ getConfig (upsertConfig ([⟨"x", some "t2", ⟨5, 1, 1⟩, 1, 1⟩] : Table Nat) "x"
      ⟨9, 2, 2⟩ (some "t1")) "x" (some "t2") = none := by
  refine ⟨by decide, by decide, by decide⟩

/-- C4 amended: reads (`get`, `list`) and deletes (`delete`,
`deleteAllRuns`) select exactly the records satisfying `tenant IS NULL OR
row.tenant = tenant`; the write operations are not tenant-filtered: a
config upsert is keyed by the id alone (either it keeps the table's
length, updating the conflicting row wherever it is, or it appends the
fresh row), and `createRun` appends unconditionally. -/
theorem c4_tenant_scoping_amended {α : Type} :
    (∀ (s : Table α) (id : String) (tenant : Option String) (r : Row α),
        findConfigRow s id tenant = some r →
          (r.id == pdecode id && tenantPred tenant r.org) = true)
  ∧ (∀ (s : Table α) (limit offset : Nat) (tenant : Option String) (r : Row α),
        r ∈ (listConfigRows s limit offset tenant).items → tenantPred tenant r.org = true)
  ∧ (∀ (s : Table α) (id : String) (tenant : Option String) (r : Row α),
        r ∈ (deleteConfig s id tenant).1 ↔
          r ∈ s ∧ (r.id == pdecode id && tenantPred tenant r.org) = false)
  ∧ (∀ (s : RunTable) (tenant : Option String) (r : RunRow),
        r ∈ (deleteAllRuns s tenant).1 ↔ r ∈ s ∧ tenantPred tenant r.org = false)
  ∧ (∀ (s : RunTable) (id : String) (tenant : Option String) (r : RunRow),
        findRunRow s id tenant = some r →
          (r.id == pdecode id && tenantPred tenant r.org) = true)
  ∧ (∀ (s : RunTable) (limit offset : Nat) (cid tenant : Option String) (r : RunRow),
        r ∈ (listRunRows s limit offset cid tenant).items → tenantPred tenant r.org = true)
  ∧ (∀ (s : Table α) (id : String) (e : Entity α) (tenant : Option String),
        (upsertConfig s id e tenant).length = s.length ∨
          upsertConfig s id e tenant =
            s ++ [{ id := id, org := tenant, config := e,
                    created_at := e.createdAt, updated_at := e.updatedAt }])
  ∧ (∀ (s : RunTable) (r : RunEnt) (tenant : Option String),
        createRun s r tenant =
          s ++ [{ id := r.rid, org := tenant, config_id := r.configId, data := r,
                  started_at := r.startedAt, completed_at := r.completedAt,
                  success := r.success }]) := by
  refine ⟨?_, ?_, ?_, ?_, ?_, ?_, ?_, ?_⟩
  · intro s id tenant r h
    rw [findConfigRow] at h
    have hp := List.find?_some h
    exact hp
  · intro s limit offset tenant r hr
    have h1 := List.take_subset _ _ hr
    have h2 := List.drop_subset _ _ h1
    rw [sortById] at h2
    have h3 := (mem_sortByKey _ r _).mp h2
    exact (List.mem_filter.mp h3).2
  · intro s id tenant r
    rw [deleteConfig]
    simp only [List.mem_filter, Bool.not_eq_eq_eq_not, Bool.not_true]
  · intro s tenant r
    rw [deleteAllRuns]
    simp only [List.mem_filter, Bool.not_eq_eq_eq_not, Bool.not_true]
  · intro s id tenant r h
    rw [findRunRow] at h
    have hp := List.find?_some h
    exact hp
  · intro s limit offset cid tenant r hr
    have h1 := List.take_subset _ _ hr
    have h2 := List.drop_subset _ _ h1
    rw [sortRunById] at h2
    have h3 := (mem_sortByKey _ r _).mp h2
    have h4 := (List.mem_filter.mp h3).2
    rw [runVisible, Bool.and_eq_true] at h4
    exact h4.1
  · intro s id e tenant
    by_cases hany : s.any (fun x => x.id == id) = true
    · left
      rw [upsertConfig, if_pos hany, List.length_map]
    · right
      rw [upsertConfig, if_neg hany]
  · intro s r tenant
    rfl

/-- C4 amended witness: the `get` clause of the amended theorem at a
concrete table and tenant. -/
theorem c4_tenant_scoping_amended_witness :
    findConfigRow ([⟨"x", some "t2", ⟨5, 1, 1⟩, 1, 1⟩] : Table Nat) "x" (some "t2") =
      some ⟨"x", some "t2", ⟨5, 1, 1⟩, 1, 1⟩
  ∧ (((⟨"x", some "t2", ⟨5, 1, 1⟩, 1, 1⟩ : Row Nat).id == pdecode "x" &&
      tenantPred (some "t2") (⟨"x", some "t2", ⟨5, 1, 1⟩, 1, 1⟩ : Row Nat).org) = true) :=
  ⟨by decide,
   (c4_tenant_scoping_amended (α := Nat)).1 [⟨"x", some "t2", ⟨5, 1, 1⟩, 1, 1⟩]
     "x" (some "t2") ⟨"x", some "t2", ⟨5, 1, 1⟩, 1, 1⟩ (by decide)⟩

/-- C5: for every entity kind (and for runs, with the optional configId
filter), `list(limit, offset, tenant)` returns the page obtained from the
id-sorted scan of the tenant-visible records by skipping `offset` records
and taking at most `limit`, and a total equal to the exact count of all
tenant-visible records, not just the page: the page is id-sorted, has at
most `limit` items, and the sort is a permutation (same length) of the
visible records. -/
theorem c5_list_pagination {α : Type} :
    (∀ (s : Table α) (limit offset : Nat) (tenant : Option String),
        (listConfigs s limit offset tenant).total = (visibleRows s tenant).length
      ∧ (listConfigs s limit offset tenant).items =
          (((sortById (visibleRows s tenant)).drop offset).take limit).map mapRowToConfig
      ∧ (listConfigs s limit offset tenant).items.length ≤ limit
      ∧ List.Pairwise (fun a b => a.id ≤ b.id) (listConfigRows s limit offset tenant).items
      ∧ (sortById (visibleRows s tenant)).length = (visibleRows s tenant).length)
  ∧ (∀ (s : RunTable) (limit offset : Nat) (cid tenant : Option String),
        (listRunRows s limit offset cid tenant).total =
          (s.filter (runVisible tenant cid)).length
      ∧ (listRunRows s limit offset cid tenant).items =
          ((sortRunById (s.filter (runVisible tenant cid))).drop offset).take limit
      ∧ (listRunRows s limit offset cid tenant).items.length ≤ limit
      ∧ List.Pairwise (fun a b => a.id ≤ b.id) (listRunRows s limit offset cid tenant).items
      ∧ (sortRunById (s.filter (runVisible tenant cid))).length =
          (s.filter (runVisible tenant cid)).length) := by
  constructor
  · intro s limit offset tenant
    refine ⟨rfl, rfl, ?_, ?_, ?_⟩
    · rw [listConfigs]
      simp only [List.length_map]
      exact List.length_take_le _ _
    · have hs := sorted_sortByKey (fun r : Row α => r.id) (visibleRows s tenant)
      have hsub : (((sortById (visibleRows s tenant)).drop offset).take limit).Sublist
          (sortById (visibleRows s tenant)) :=
        (List.take_sublist _ _).trans (List.drop_sublist _ _)
      rw [sortById] at hsub
      exact List.Pairwise.sublist hsub hs
    · rw [sortById]
      exact length_sortByKey _ _
  · intro s limit offset cid tenant
    refine ⟨rfl, rfl, List.length_take_le _ _, ?_, ?_⟩
    · have hs := sorted_sortByKey (fun r : RunRow => r.id) (s.filter (runVisible tenant cid))
      have hsub : (((sortRunById (s.filter (runVisible tenant cid))).drop offset).take
          limit).Sublist (sortRunById (s.filter (runVisible tenant cid))) :=
        (List.take_sublist _ _).trans (List.drop_sublist _ _)
      rw [sortRunById] at hsub
      exact List.Pairwise.sublist hsub hs
    · rw [sortRunById]
      exact length_sortByKey _ _

/-- C6: if a required environment variable is missing at startup
(`GRAPHQL_PORT`; `OPENAI_API_KEY` when the LLM provider is not GEMINI;
`GEMINI_API_KEY` when it is; `REDIS_HOST` when the datastore backend is
redis; `AUTH_TOKEN` when no other authentication provider is configured),
`startServer` fails with a diagnostic that begins with the name of a
missing required variable, and the process exit code is 1 (non-zero);
with no required variable missing the startup validation succeeds and the
exit code is 0. -/
theorem c6_env_validation (e : Env) :
    ((∃ v, requiredMissing e v = true) →
      ∃ v rest, requiredMissing e v = true ∧
        startServer e = Except.error (v ++ rest) ∧ startupExitCode e = 1)
  ∧ ((∀ v, requiredMissing e v = false) →
      startServer e = Except.ok () ∧ startupExitCode e = 0) := by
  constructor
  · rintro ⟨v, hv⟩
    by_cases h1 : (!isSet e.graphqlPort) = true
    · refine ⟨"GRAPHQL_PORT", " is not set.", ?_, ?_, ?_⟩
      · simp [requiredMissing, h1]
      · have hmsg : ("GRAPHQL_PORT" ++ " is not set." : String) =
            "GRAPHQL_PORT is not set." := by decide
        rw [hmsg, startServer, validateEnvironment, if_pos h1]
      · simp [startupExitCode, startServer, validateEnvironment, h1]
    · by_cases h2 : (!(e.llmProvider == some "GEMINI") && !isSet e.openaiApiKey) = true
      · refine ⟨"OPENAI_API_KEY", " is not set.", ?_, ?_, ?_⟩
        · simp [requiredMissing, Bool.and_eq_true] at h2 ⊢
          exact h2
        · have hmsg : ("OPENAI_API_KEY" ++ " is not set." : String) =
              "OPENAI_API_KEY is not set." := by decide
          rw [hmsg, startServer, validateEnvironment, if_neg h1, if_pos h2]
        · simp [startupExitCode, startServer, validateEnvironment, h1, h2]
      · by_cases h3 : (e.llmProvider == some "GEMINI" && !isSet e.geminiApiKey) = true
        · refine ⟨"GEMINI_API_KEY", " is not set.", ?_, ?_, ?_⟩
          · simp [requiredMissing, Bool.and_eq_true] at h3 ⊢
            exact h3
          · have hmsg : ("GEMINI_API_KEY" ++ " is not set." : String) =
                "GEMINI_API_KEY is not set." := by decide
            rw [hmsg, startServer, validateEnvironment, if_neg h1, if_neg h2, if_pos h3]
          · simp [startupExitCode, startServer, validateEnvironment, h1, h2, h3]
        · by_cases h4 : (e.datastoreType == some "redis" && !isSet e.redisHost) = true
          · refine ⟨"REDIS_HOST", " is not set.", ?_, ?_, ?_⟩
            · simp [requiredMissing, Bool.and_eq_true] at h4 ⊢
              exact h4
            · have hmsg : ("REDIS_HOST" ++ " is not set." : String) =
                  "REDIS_HOST is not set." := by decide
              rw [hmsg, startServer, validateEnvironment, if_neg h1, if_neg h2,
                if_neg h3, if_pos h4]
            · simp [startupExitCode, startServer, validateEnvironment, h1, h2, h3, h4]
          · by_cases h5 : (!isSet e.authToken && !isSet e.supabaseUrl) = true
            · refine ⟨"AUTH_TOKEN",
                " is not set and no other authentication provider is configured.",
                ?_, ?_, ?_⟩
              · simp [requiredMissing, Bool.and_eq_true] at h5 ⊢
                exact h5
              · have hmsg : ("AUTH_TOKEN" ++
                    " is not set and no other authentication provider is configured." :
                    String) =
                    "AUTH_TOKEN is not set and no other authentication provider is configured." := by
                  decide
                rw [hmsg, startServer, validateEnvironment, if_neg h1, if_neg h2,
                  if_neg h3, if_neg h4, if_pos h5]
              · simp [startupExitCode, startServer, validateEnvironment,
                  h1, h2, h3, h4, h5]
            · exfalso
              have toFalse : ∀ b : Bool, ¬b = true → b = false := by
                intro b hb
                cases b
                · rfl
                · exact absurd rfl hb
              rw [requiredMissing, toFalse _ h1, toFalse _ h2, toFalse _ h3,
                toFalse _ h4, toFalse _ h5] at hv
              simp at hv
  · intro hall
    have h1 : ¬(!isSet e.graphqlPort) = true := by
      intro hb
      have hx := hall "GRAPHQL_PORT"
      rw [requiredMissing] at hx
      simp [hb] at hx
    have h2 : ¬(!(e.llmProvider == some "GEMINI") && !isSet e.openaiApiKey) = true := by
      intro hb
      have hx := hall "OPENAI_API_KEY"
      rw [requiredMissing] at hx
      simp [hb] at hx
    have h3 : ¬(e.llmProvider == some "GEMINI" && !isSet e.geminiApiKey) = true := by
      intro hb
      have hx := hall "GEMINI_API_KEY"
      rw [requiredMissing] at hx
      simp [hb] at hx
    have h4 : ¬(e.datastoreType == some "redis" && !isSet e.redisHost) = true := by
      intro hb
      have hx := hall "REDIS_HOST"
      rw [requiredMissing] at hx
      simp [hb] at hx
    have h5 : ¬(!isSet e.authToken && !isSet e.supabaseUrl) = true := by
      intro hb
      have hx := hall "AUTH_TOKEN"
      rw [requiredMissing] at hx
      simp [hb] at hx
    constructor
    · rw [startServer, validateEnvironment, if_neg h1, if_neg h2, if_neg h3,
        if_neg h4, if_neg h5]
    · rw [startupExitCode, startServer, validateEnvironment, if_neg h1, if_neg h2,
        if_neg h3, if_neg h4, if_neg h5]

/-- C6 witness: the empty environment is missing `GRAPHQL_PORT`, and
startup fails with a diagnostic beginning with a missing variable's name
and exit code 1. -/
theorem c6_env_validation_witness :
    requiredMissing ⟨none, none, none, none, none, none, none, none⟩ "GRAPHQL_PORT" = true
  ∧ ∃ v rest,
      requiredMissing ⟨none, none, none, none, none, none, none, none⟩ v = true
    ∧ startServer ⟨none, none, none, none, none, none, none, none⟩ =
        Except.error (v ++ rest)
    ∧ startupExitCode ⟨none, none, none, none, none, none, none, none⟩ = 1 :=
  ⟨by decide,
   (c6_env_validation ⟨none, none, none, none, none, none, none, none⟩).1
     ⟨"GRAPHQL_PORT", by decide⟩⟩

/-- C7: `restartServer` performs, in order, stop (when an instance is
held), the wait, then start.  On its non-throwing path the event trace is
exactly stop–wait–start (or wait–start when there was nothing to stop),
the state handed to `startServer` holds no instance and has the port
free, and afterwards the new instance is running; on the path where
`stopServer` throws, no start is performed at all.  Premise: the port is
bound only while our server is listening. -/
theorem c7_restart_stop_wait_start (w : SrvWorld) (apollo : Bool)
    (hinv : w.portBound = true → isRunning w = true) :
    ((restartServer w apollo).1.2 = false →
        (restartServer w apollo).2 =
          (if isRunning w || w.current.isSome then [Ev.stopEv] else []) ++
            [Ev.waitEv, Ev.startEv]
      ∧ (preStartWorld w apollo).current = none
      ∧ (preStartWorld w apollo).portBound = false
      ∧ isRunning (restartServer w apollo).1.1 = true)
  ∧ ((restartServer w apollo).1.2 = true →
        Ev.startEv ∉ (restartServer w apollo).2) := by
  rcases w with ⟨cur, pb⟩
  cases cur with
  | none =>
    have hpb : pb = false := by
      cases pb
      · rfl
      · exact absurd (hinv rfl) (by simp [isRunning])
    subst hpb
    constructor
    · intro _
      refine ⟨?_, ?_, ?_, ?_⟩
      · simp [restartServer, isRunning, startInstance]
      · simp [preStartWorld, isRunning]
      · simp [preStartWorld, isRunning]
      · simp [restartServer, isRunning, startInstance]
    · intro hfail
      exfalso
      simp [restartServer, isRunning, startInstance] at hfail
  | some h =>
    cases apollo with
    | true =>
      constructor
      · intro hfail
        exfalso
        simp [restartServer, isRunning, stopServer, startInstance] at hfail
      · intro _
        simp [restartServer, isRunning, stopServer, startInstance]
    | false =>
      constructor
      · intro _
        refine ⟨?_, ?_, ?_, ?_⟩
        · simp [restartServer, isRunning, stopServer, startInstance]
        · simp [preStartWorld, isRunning, stopServer]
        · cases hl : h.listening
          · have hpb : pb = false := by
              cases pb
              · rfl
              · have := hinv rfl
                simp [isRunning, hl] at this
            subst hpb
            simp [preStartWorld, isRunning, stopServer, hl]
          · simp [preStartWorld, isRunning, stopServer, hl]
        · simp [restartServer, isRunning, stopServer, startInstance]
      · intro hfail
        exfalso
        simp [restartServer, isRunning, stopServer, startInstance] at hfail

/-- C7 witness: a held, listening instance with the port bound; restart
emits stop–wait–start, hands `startServer` an instance-free world with
the port released, and ends running. -/
theorem c7_restart_stop_wait_start_witness :
    ((⟨some ⟨true⟩, true⟩ : SrvWorld).portBound = true →
      isRunning ⟨some ⟨true⟩, true⟩ = true)
  ∧ ((restartServer ⟨some ⟨true⟩, true⟩ false).1.2 = false →
        (restartServer ⟨some ⟨true⟩, true⟩ false).2 =
          (if isRunning (⟨some ⟨true⟩, true⟩ : SrvWorld) ||
              (⟨some ⟨true⟩, true⟩ : SrvWorld).current.isSome then [Ev.stopEv]
            else []) ++ [Ev.waitEv, Ev.startEv]
      ∧ (preStartWorld ⟨some ⟨true⟩, true⟩ false).current = none
      ∧ (preStartWorld ⟨some ⟨true⟩, true⟩ false).portBound = false
      ∧ isRunning (restartServer ⟨some ⟨true⟩, true⟩ false).1.1 = true) :=
  ⟨fun _ => rfl,
   (c7_restart_stop_wait_start ⟨some ⟨true⟩, true⟩ false (fun _ => rfl)).1⟩

/-- The step phase never evaluates the final transform: no `finalEval`
event is in its trace. -/
theorem execSteps_ok_eq (runStep : WStep → Ctx → Except String JVal)
    (st : WStep) (rest : List WStep) (ctx : Ctx) (i : Nat) (v : JVal)
    (hr : runStep st ctx = Except.ok v) :
    execSteps runStep (st :: rest) ctx i =
      ((⟨st.sid, true, some v, none⟩ : StepOutcome) ::
          (execSteps runStep rest ((st.sid, v) :: ctx) (i + 1)).1,
        (execSteps runStep rest ((st.sid, v) :: ctx) (i + 1)).2.1,
        (execSteps runStep rest ((st.sid, v) :: ctx) (i + 1)).2.2.1,
        ExEv.stepStarted i ::
          (execSteps runStep rest ((st.sid, v) :: ctx) (i + 1)).2.2.2) := by
  rw [execSteps, hr]

theorem execSteps_error_eq (runStep : WStep → Ctx → Except String JVal)
    (st : WStep) (rest : List WStep) (ctx : Ctx) (i : Nat) (m : String)
    (hr : runStep st ctx = Except.error m) :
    execSteps runStep (st :: rest) ctx i =
      ([⟨st.sid, false, none, some m⟩], ctx, some m, [ExEv.stepStarted i]) := by
  rw [execSteps, hr]

theorem execSteps_no_finalEval (runStep : WStep → Ctx → Except String JVal)
    (steps : List WStep) (ctx : Ctx) (i : Nat) :
    ExEv.finalEval ∉ (execSteps runStep steps ctx i).2.2.2 := by
  induction steps generalizing ctx i with
  | nil => simp [execSteps]
  | cons st rest ih =>
    cases hr : runStep st ctx with
    | ok v =>
      rw [execSteps_ok_eq runStep st rest ctx i v hr]
      intro hmem
      rcases List.mem_cons.mp hmem with hmem | hmem
      · exact ExEv.noConfusion hmem
      · exact ih ((st.sid, v) :: ctx) (i + 1) hmem
    | error m =>
      rw [execSteps_error_eq runStep st rest ctx i m hr]
      simp

/-- When the step phase stops with an error, some emitted step outcome is
the failed one, carrying that error. -/
theorem execSteps_failed_mem (runStep : WStep → Ctx → Except String JVal)
    (steps : List WStep) (ctx : Ctx) (i : Nat) (msg : String)
    (h : (execSteps runStep steps ctx i).2.2.1 = some msg) :
    ∃ sr ∈ (execSteps runStep steps ctx i).1,
      sr.success = false ∧ sr.error = some msg := by
  induction steps generalizing ctx i with
  | nil => simp [execSteps] at h
  | cons st rest ih =>
    cases hr : runStep st ctx with
    | ok v =>
      rw [execSteps_ok_eq runStep st rest ctx i v hr] at h ⊢
      obtain ⟨sr, hmem, hsr⟩ := ih ((st.sid, v) :: ctx) (i + 1) h
      exact ⟨sr, List.mem_cons_of_mem _ hmem, hsr⟩
    | error m =>
      rw [execSteps_error_eq runStep st rest ctx i m hr] at h ⊢
      have h2 : (some m : Option String) = some msg := h
      rw [Option.some.injEq] at h2
      subst h2
      exact ⟨⟨st.sid, false, none, some m⟩, List.mem_singleton_self _,
        rfl, rfl⟩

/-- C2: whenever a workflow step fails during execution, the returned run
result has `success = false` and `error` set to the failing step's error,
the final transform is never evaluated (no `finalEval` event occurs in
the execution trace), and the result's `data` field is null. -/
theorem c2_step_failure_semantics
    (runStep : WStep → Ctx → Except String JVal)
    (finalEval : Ctx → Except String JVal) (steps : List WStep) (payload : Ctx)
    (msg : String)
    (h : (execSteps runStep steps payload 0).2.2.1 = some msg) :
    (executeWorkflow runStep finalEval steps payload).1.success = false
  ∧ (executeWorkflow runStep finalEval steps payload).1.error = some msg
  ∧ (executeWorkflow runStep finalEval steps payload).1.data = none
  ∧ ExEv.finalEval ∉ (executeWorkflow runStep finalEval steps payload).2
  ∧ ∃ sr ∈ (executeWorkflow runStep finalEval steps payload).1.stepResults,
      sr.success = false ∧ sr.error = some msg := by
  have hno := execSteps_no_finalEval runStep steps payload 0
  have hmem := execSteps_failed_mem runStep steps payload 0 msg h
  rcases hsplit : execSteps runStep steps payload 0 with ⟨srs, ctx, err, evs⟩
  rw [hsplit] at h hno hmem
  have herr : err = some msg := h
  subst herr
  have hw : executeWorkflow runStep finalEval steps payload =
      ({ success := false, data := none, stepResults := srs, error := some msg },
        evs) := by
    unfold executeWorkflow
    rw [hsplit]
  rw [hw]
  exact ⟨rfl, rfl, rfl, hno, hmem⟩

/-- C2 witness: a one-step workflow whose step runner fails with `boom`:
the result is failed with that error, null data, and no final-transform
evaluation. -/
theorem c2_step_failure_semantics_witness :
    (execSteps (fun _ _ => Except.error "boom") [⟨"s1"⟩] [] 0).2.2.1 = some "boom"
  ∧ (executeWorkflow (fun _ _ => Except.error "boom")
      (fun _ => Except.ok JVal.jnull) [⟨"s1"⟩] []).1.success = false
  ∧ (executeWorkflow (fun _ _ => Except.error "boom")
      (fun _ => Except.ok JVal.jnull) [⟨"s1"⟩] []).1.error = some "boom"
  ∧ (executeWorkflow (fun _ _ => Except.error "boom")
      (fun _ => Except.ok JVal.jnull) [⟨"s1"⟩] []).1.data = none
  ∧ ExEv.finalEval ∉ (executeWorkflow (fun _ _ => Except.error "boom")
      (fun _ => Except.ok JVal.jnull) [⟨"s1"⟩] []).2 :=
  ⟨rfl,
   (c2_step_failure_semantics (fun _ _ => Except.error "boom")
     (fun _ => Except.ok JVal.jnull) [⟨"s1"⟩] [] "boom" rfl).1,
   (c2_step_failure_semantics (fun _ _ => Except.error "boom")
     (fun _ => Except.ok JVal.jnull) [⟨"s1"⟩] [] "boom" rfl).2.1,
   (c2_step_failure_semantics (fun _ _ => Except.error "boom")
     (fun _ => Except.ok JVal.jnull) [⟨"s1"⟩] [] "boom" rfl).2.2.1,
   (c2_step_failure_semantics (fun _ _ => Except.error "boom")
     (fun _ => Except.ok JVal.jnull) [⟨"s1"⟩] [] "boom" rfl).2.2.2.1⟩

end Superglue
